import Mathlib

/-!
Shallow embedding of `src/fetch_nodes.py`, a provisioning helper that
clones and updates ComfyUI custom-node repositories, installs their
requirements, and reports workflow identifiers with no repository mapping.

Conventions of the embedding:

* Python strings are Lean `String`s (or `List Char` where recursion over
  characters is needed).  Python standard-library routines used by the
  script (`os.path.basename`, `os.path.join`, `str.replace`, `str.lower`,
  `str.strip`, `str.splitlines`, `shlex.quote`, `json.dumps`, `re.findall`)
  are modelled as executable Lean functions over characters, restricted to
  the ASCII behaviour the script exercises.
* The filesystem and the outcomes of external commands are oracles packed
  in `Env`: `fs p` answers `os.path.exists(p)`, and `out c cwd` says what
  `subprocess.check_call(shlex.split(c), cwd=cwd)` does — normal exit,
  `CalledProcessError` (nonzero exit), or an `OSError` such as
  `FileNotFoundError` when the executable cannot be found.
* Logging (`log`) only prints and appends to a file; it is not modelled.
  Instead every modelled operation returns, besides its value, the trace of
  attempted external commands with their working directories.
-/

/-- Python `a or b` on optional strings, by truthiness: `None` and the empty
string are falsy. -/
def pyOrS : Option String → Option String → Option String
  | some s, b => if s = "" then b else some s
  | none, b => b

/-- ASCII case of Python `str.lower` on one character. -/
def pyLowerChar (c : Char) : Char :=
  if 'A' ≤ c ∧ c ≤ 'Z' then Char.ofNat (c.toNat + 32) else c

/-- ASCII case of Python `str.lower`. -/
def pyLower (s : String) : String := ⟨s.data.map pyLowerChar⟩

/-- Does `needle` occur as a contiguous substring (Python `needle in hay`)? -/
def containsSub (needle : List Char) : List Char → Bool
  | [] => needle.isPrefixOf []
  | c :: t => needle.isPrefixOf (c :: t) || containsSub needle t

/-- String wrapper for `containsSub`. -/
def containsSubS (needle hay : String) : Bool := containsSub needle.data hay.data

/-- Model of `os.path.basename` of a POSIX path: the part after the last slash. -/
def basenameL (l : List Char) : List Char :=
  l.foldl (fun acc c => if c = '/' then [] else acc ++ [c]) []

/-- Python `s.replace(".git", "")`: removes every leftmost-first,
non-overlapping occurrence of the substring `.git` — not only a trailing
suffix. -/
def stripAllGit : List Char → List Char
  | '.' :: 'g' :: 'i' :: 't' :: rest => stripAllGit rest
  | c :: rest => c :: stripAllGit rest
  | [] => []

/-- Does the substring `.git` occur anywhere in the list? -/
def hasGit : List Char → Bool
  | '.' :: 'g' :: 'i' :: 't' :: _ => true
  | _ :: rest => hasGit rest
  | [] => false

/-- Model of `repo_name = os.path.basename(repo_url).replace('.git', '')`
(line 102 of the script). -/
def repoName (url : String) : String := ⟨stripAllGit (basenameL url.data)⟩

/-- Model of `os.path.join(a, b)` for two POSIX components. -/
def pathJoin (a b : String) : String :=
  if b.data.headD ' ' = '/' then b
  else if a = "" then b
  else if a.data.getLast? = some '/' then a ++ b
  else a ++ "/" ++ b

/-- A character `shlex.quote` considers safe: ASCII alphanumerics,
underscore, and the characters at-sign, percent, plus, equals, colon,
comma, dot, slash, dash. -/
def shSafeChar (c : Char) : Bool :=
  ('a' ≤ c && c ≤ 'z') || ('A' ≤ c && c ≤ 'Z') || ('0' ≤ c && c ≤ '9') ||
  c == '_' || c == '@' || c == '%' || c == '+' || c == '=' || c == ':' ||
  c == ',' || c == '.' || c == '/' || c == '-'

/-- Replace every single quote by the sequence quote, double-quote, quote,
double-quote, quote — the body transformation of `shlex.quote`. -/
def squoteEsc : List Char → List Char
  | [] => []
  | c :: t =>
    if c == '\x27' then '\x27' :: '"' :: '\x27' :: '"' :: '\x27' :: squoteEsc t
    else c :: squoteEsc t

/-- Model of `shlex.quote(s)`. -/
def shquote (s : String) : String :=
  if s = "" then "\x27\x27"
  else if s.data.all shSafeChar then s
  else ⟨'\x27' :: (squoteEsc s.data ++ ['\x27'])⟩

/-- The static identifier-to-repository table `DEFAULT_MAP` (lines 31-51);
`none` is Python `None`, the explicit no-repository marker. -/
def DEFAULT_MAP : List (String × Option String) := [
  ("comfyui-kjnodes", some "https://github.com/kijai/ComfyUI-KJNodes.git"),
  ("rgthree-comfy", some "https://github.com/rgthree/rgthree-comfy.git"),
  ("cg-use-everywhere", some "https://github.com/chrisgoringe/cg-use-everywhere.git"),
  ("was-node-suite-comfyui", some "https://github.com/WASasquatch/was-node-suite-comfyui.git"),
  ("comfyui-florence2", some "https://github.com/kijai/ComfyUI-Florence2.git"),
  ("comfyui-frame-interpolation", some "https://github.com/Fannovel16/ComfyUI-Frame-Interpolation.git"),
  ("comfyui_essentials", some "https://github.com/cubiq/ComfyUI_essentials.git"),
  ("comfyui-videohelpersuite", some "https://github.com/Kosinkadink/ComfyUI-VideoHelperSuite.git"),
  ("comfyui-crystools", some "https://github.com/rgthree/comfyui-crystools.git"),
  ("comfyui_tinyterranodes", some "https://github.com/comfyanonymous/comfyui_tinyterranodes.git"),
  ("teacache", some "https://github.com/welltop-cn/ComfyUI-TeaCache.git"),
  ("crt-nodes", some "https://github.com/ComfyUI-Community/CRT-Nodes.git"),
  ("comfyui-chibi-nodes", some "https://github.com/erred-io/ComfyUI-Chibi-Nodes.git"),
  ("comfyui-gguf", some "https://github.com/erred-io/ComfyUI-GGUF.git"),
  ("aegisflow_utility_nodes", some "https://github.com/aegisflow/aegisflow_utility_nodes.git"),
  ("comfy-image-saver", some "https://github.com/rgthree/comfyui-image-saver.git"),
  ("comfy-core", none)]

/-- Python `DEFAULT_MAP.get(k)`: yields `None` both when the key is absent
and when the key is stored with value `None`. -/
def dictGet (m : List (String × Option String)) (k : String) : Option String :=
  match m.lookup k with
  | some v => v
  | none => none

/-- Outcome of one `subprocess.check_call` invocation. -/
inductive RunOutcome where
  | success
  | calledProcessError
  | osError
deriving DecidableEq

/-- A Python exception the script does not catch. -/
inductive PyExc where
  | osError
deriving DecidableEq

/-- One attempted external command: its command line and working directory. -/
abbrev TraceEntry := String × Option String

/-- Oracles for the outside world: `fs p` answers `os.path.exists(p)`, and
`out c cwd` gives the outcome of running command line `c` in directory
`cwd`. -/
structure Env where
  fs : String → Bool
  out : String → Option String → RunOutcome

/-- Model of `run(cmd, cwd)` (lines 65-72): converts a `CalledProcessError` into the
boolean `False` (after a log line); any other exception — e.g. a
`FileNotFoundError` because the executable is missing — is not caught by the
`except subprocess.CalledProcessError` clause and escapes.  Also returns the
trace of the attempted invocation. -/
def run (env : Env) (cmd : String) (cwd : Option String) :
    Except PyExc Bool × List TraceEntry :=
  match env.out cmd cwd with
  | .success => (.ok true, [(cmd, cwd)])
  | .calledProcessError => (.ok false, [(cmd, cwd)])
  | .osError => (.error .osError, [(cmd, cwd)])

/-- Sequence two traced steps; an escaped exception in the first aborts the
second, otherwise the boolean result is handed on and the traces are
concatenated. -/
def andThen (step : Except PyExc Bool × List TraceEntry)
    (k : Bool → Except PyExc Bool × List TraceEntry) :
    Except PyExc Bool × List TraceEntry :=
  match step with
  | (.error e, tr) => (.error e, tr)
  | (.ok b, tr) => ((k b).1, tr ++ (k b).2)

/-- The command line `pip_install` hands to `run` when the requirements file
exists: the chosen pip executable when it is truthy and exists on disk,
otherwise the `python3 -m pip` module-invocation fallback (lines 95-98). -/
def pipCmdFor (env : Env) (pip_exec : Option String) (req_path : String) : String :=
  match pip_exec with
  | some p =>
    if p != "" && env.fs p then p ++ " install -r " ++ shquote req_path
    else "python3 -m pip install -r " ++ shquote req_path
  | none => "python3 -m pip install -r " ++ shquote req_path

/-- Model of `pip_install(pip_exec, req_path)` (lines 92-98): immediately `True` when
the requirements file does not exist, otherwise runs the chosen installer
command. -/
def pip_install (env : Env) (pip_exec : Option String) (req_path : String) :
    Except PyExc Bool × List TraceEntry :=
  if env.fs req_path = false then (.ok true, [])
  else run env (pipCmdFor env pip_exec req_path) none

/-- The clone command of line 108. -/
def cloneCmd (url dir : String) : String :=
  "git clone --recurse-submodules --depth 1 " ++ shquote url ++ " " ++ shquote dir

/-- The fetch command of line 114. -/
def fetchCmd (dir : String) : String :=
  "git -C " ++ shquote dir ++ " fetch --all --tags --prune"

/-- The pull command of line 115. -/
def pullCmd (dir : String) : String :=
  "git -C " ++ shquote dir ++ " pull --rebase --autostash"

/-- The submodule sync command of line 117. -/
def submoduleSyncCmd (dir : String) : String :=
  "git -C " ++ shquote dir ++ " submodule sync --recursive"

/-- The submodule update command of line 118. -/
def submoduleUpdateCmd (dir : String) : String :=
  "git -C " ++ shquote dir ++ " submodule update --init --recursive"

/-- The install-script command of line 129. -/
def installPyCmd (script : String) : String := "python3 " ++ shquote script

/-- Lines 114-132 of `sync_repo`: the four git update steps (their boolean
results are ignored), then `requirements.txt` installation and `install.py`
execution when those files exist, then `return True`. -/
def updateAndInstall (env : Env) (repo_dir : String) (pip_exec : Option String) :
    Except PyExc Bool × List TraceEntry :=
  andThen (run env (fetchCmd repo_dir) none) fun _ =>
  andThen (run env (pullCmd repo_dir) none) fun _ =>
  andThen (run env (submoduleSyncCmd repo_dir) none) fun _ =>
  andThen (run env (submoduleUpdateCmd repo_dir) none) fun _ =>
    let req := pathJoin repo_dir "requirements.txt"
    let ip := pathJoin repo_dir "install.py"
    let instStep : Except PyExc Bool × List TraceEntry :=
      if env.fs ip then
        andThen (run env (installPyCmd ip) (some repo_dir)) fun _ => (.ok true, [])
      else (.ok true, [])
    if env.fs req then andThen (pip_install env pip_exec req) fun _ => instStep
    else instStep

/-- Model of `sync_repo(repo_url, target_dir, pip_exec)` (lines 101-132): clone when
the derived directory is missing — a failed clone returns `False` at once —
then the update and install steps. -/
def sync_repo (env : Env) (repo_url target_dir : String) (pip_exec : Option String) :
    Except PyExc Bool × List TraceEntry :=
  let repo_dir := pathJoin target_dir (repoName repo_url)
  if env.fs repo_dir = false then
    andThen (run env (cloneCmd repo_url repo_dir) none) fun ok =>
      if ok then updateAndInstall env repo_dir pip_exec else (.ok false, [])
  else updateAndInstall env repo_dir pip_exec

/-- The per-identifier resolution of `main` (lines 171-183): exact map
lookup, then lowercase lookup, chained by Python `or`, then the two
heuristic substring guesses. -/
def resolveRepo (c : String) : Option String :=
  let k := pyLower c
  match pyOrS (dictGet DEFAULT_MAP c) (pyOrS (dictGet DEFAULT_MAP k) none) with
  | some r => some r
  | none =>
    if containsSubS "rgthree" k then
      some "https://github.com/rgthree/rgthree-comfy.git"
    else if containsSubS "crt" k || containsSubS "crt-nodes" k then
      some "https://github.com/ComfyUI-Community/CRT-Nodes.git"
    else none

/-- The identifier loop of `main` (lines 170-188), accumulating the URLs
passed to `sync_repo` and the `missing_map` report; an exception escaping
`sync_repo` aborts the loop. -/
def mainLoop (env : Env) (target : String) (pip_exec : Option String) :
    List String → List String × List String → Except PyExc (List String × List String)
  | [], acc => .ok acc
  | c :: rest, acc =>
    match resolveRepo c with
    | some r =>
      if r ≠ "" then
        match (sync_repo env r target pip_exec).1 with
        | .error e => .error e
        | .ok _ => mainLoop env target pip_exec rest (acc.1 ++ [r], acc.2)
      else mainLoop env target pip_exec rest (acc.1, acc.2 ++ [c])
    | none => mainLoop env target pip_exec rest (acc.1, acc.2 ++ [c])

/-- The identifier loop started on empty accumulators. -/
def processCnrIds (env : Env) (target : String) (pip_exec : Option String)
    (cnrs : List String) : Except PyExc (List String × List String) :=
  mainLoop env target pip_exec cnrs ([], [])

/-- There is no invocation whose executable is missing: every external
command either exits normally or raises `CalledProcessError`. -/
def noExc (env : Env) : Prop := ∀ c cwd, env.out c cwd ≠ RunOutcome.osError

/-- Under `noExc`, `run` returns a boolean and records exactly one attempt. -/
lemma run_noExc (env : Env) (h : noExc env) (c : String) (cwd : Option String) :
    ∃ b, run env c cwd = (.ok b, [(c, cwd)]) := by
  unfold run
  cases hc : env.out c cwd with
  | success => exact ⟨true, rfl⟩
  | calledProcessError => exact ⟨false, rfl⟩
  | osError => exact absurd hc (h c cwd)

/-- The exact command trace of the update-and-install phase: the four git
update steps, then the pip command when `requirements.txt` exists, then the
`install.py` command when that script exists. -/
def updateTrace (env : Env) (repo_dir : String) (pip_exec : Option String) : List TraceEntry :=
  [(fetchCmd repo_dir, none), (pullCmd repo_dir, none),
   (submoduleSyncCmd repo_dir, none), (submoduleUpdateCmd repo_dir, none)] ++
  (if env.fs (pathJoin repo_dir "requirements.txt") then
     [(pipCmdFor env pip_exec (pathJoin repo_dir "requirements.txt"), none)] else []) ++
  (if env.fs (pathJoin repo_dir "install.py") then
     [(installPyCmd (pathJoin repo_dir "install.py"), some repo_dir)] else [])

/-- Under `noExc` the update-and-install phase always returns `True` and its
trace is exactly `updateTrace`, whatever the individual step results are. -/
lemma updateAndInstall_noExc (env : Env) (repo_dir : String) (pip_exec : Option String)
    (h : noExc env) :
    updateAndInstall env repo_dir pip_exec = (.ok true, updateTrace env repo_dir pip_exec) := by
  obtain ⟨b1, h1⟩ := run_noExc env h (fetchCmd repo_dir) none
  obtain ⟨b2, h2⟩ := run_noExc env h (pullCmd repo_dir) none
  obtain ⟨b3, h3⟩ := run_noExc env h (submoduleSyncCmd repo_dir) none
  obtain ⟨b4, h4⟩ := run_noExc env h (submoduleUpdateCmd repo_dir) none
  obtain ⟨b5, h5⟩ := run_noExc env h
    (pipCmdFor env pip_exec (pathJoin repo_dir "requirements.txt")) none
  obtain ⟨b6, h6⟩ := run_noExc env h
    (installPyCmd (pathJoin repo_dir "install.py")) (some repo_dir)
  unfold updateAndInstall updateTrace pip_install
  rw [h1]
  simp only [andThen]
  rw [h2]
  simp only [andThen]
  rw [h3]
  simp only [andThen]
  rw [h4]
  simp only [andThen]
  by_cases hreq : env.fs (pathJoin repo_dir "requirements.txt") <;>
    by_cases hip : env.fs (pathJoin repo_dir "install.py") <;>
      simp [hreq, hip, andThen, h5, h6]

/-- C2: `sync_repo` succeeds exactly when the clone-or-presence step does —
the directory already exists or the fresh clone exits normally; failures of
fetch, pull, submodule sync, submodule update, pip install or `install.py`
never flip the result — and with an existing directory no clone command is
issued while the trace is exactly the four update steps followed by the
dependency/install commands. -/
theorem sync_repo_success_iff_clone_or_present (env : Env) (url target : String)
    (pip_exec : Option String) (h : noExc env) :
    ((sync_repo env url target pip_exec).1 = .ok true ↔
      (env.fs (pathJoin target (repoName url)) = true ∨
       env.out (cloneCmd url (pathJoin target (repoName url))) none = .success)) ∧
    (env.fs (pathJoin target (repoName url)) = true →
      (sync_repo env url target pip_exec).2 =
        updateTrace env (pathJoin target (repoName url)) pip_exec) := by
  have hu := updateAndInstall_noExc env (pathJoin target (repoName url)) pip_exec h
  unfold sync_repo
  cases hfs : env.fs (pathJoin target (repoName url)) with
  | true => simp [hfs, hu]
  | false =>
      cases hc : env.out (cloneCmd url (pathJoin target (repoName url))) none with
      | success => simp [hfs, run, hc, andThen, hu]
      | calledProcessError => simp [hfs, run, hc, andThen]
      | osError => exact absurd hc (h _ _)

def envAllCpe : Env := ⟨fun _ => true, fun _ _ => .calledProcessError⟩

def envNoneCpe : Env := ⟨fun _ => false, fun _ _ => .calledProcessError⟩

/-- Witness for C2 at a concrete environment. -/
theorem sync_repo_success_iff_clone_or_present_witness :
    (((sync_repo envAllCpe "https://h/r.git" "/t" none).1 = .ok true ↔
      (envAllCpe.fs (pathJoin "/t" (repoName "https://h/r.git")) = true ∨
       envAllCpe.out (cloneCmd "https://h/r.git" (pathJoin "/t" (repoName "https://h/r.git"))) none =
         .success)) ∧
    (envAllCpe.fs (pathJoin "/t" (repoName "https://h/r.git")) = true →
      (sync_repo envAllCpe "https://h/r.git" "/t" none).2 =
        updateTrace envAllCpe (pathJoin "/t" (repoName "https://h/r.git")) none)) :=
  sync_repo_success_iff_clone_or_present envAllCpe "https://h/r.git" "/t" none
    (fun _ _ hh => RunOutcome.noConfusion hh)

/-- C3: when the derived directory is missing and the clone fails with a
nonzero exit, `sync_repo` returns `False` and the clone is the only
attempted command. -/
theorem sync_repo_clone_failure_terminal (env : Env) (url target : String)
    (pip_exec : Option String)
    (hd : env.fs (pathJoin target (repoName url)) = false)
    (hc : env.out (cloneCmd url (pathJoin target (repoName url))) none = .calledProcessError) :
    sync_repo env url target pip_exec =
      (.ok false, [(cloneCmd url (pathJoin target (repoName url)), none)]) := by
  unfold sync_repo
  simp [hd, run, hc, andThen]

/-- Witness for C3 at a concrete environment. -/
theorem sync_repo_clone_failure_terminal_witness :
    sync_repo envNoneCpe "https://h/r.git" "/t" none =
      (.ok false, [(cloneCmd "https://h/r.git" (pathJoin "/t" (repoName "https://h/r.git")), none)]) :=
  sync_repo_clone_failure_terminal envNoneCpe "https://h/r.git" "/t" none rfl rfl

/-- C9: with an existing checkout directory, `sync_repo` depends on the URL
only through the derived directory name: two URLs with the same derived
name produce identical results and identical command traces, namely the
four update steps and the install steps on that directory — no clone and no
command mentioning either URL. -/
theorem sync_repo_url_independent_when_present (env : Env) (url1 url2 target : String)
    (pip_exec : Option String) (h : noExc env)
    (hname : repoName url1 = repoName url2)
    (hfs : env.fs (pathJoin target (repoName url1)) = true) :
    sync_repo env url1 target pip_exec = sync_repo env url2 target pip_exec ∧
    (sync_repo env url1 target pip_exec).2 =
      updateTrace env (pathJoin target (repoName url1)) pip_exec := by
  have hu := updateAndInstall_noExc env (pathJoin target (repoName url1)) pip_exec h
  unfold sync_repo
  rw [← hname]
  simp [hfs, hu]

/-- Witness for C9 at two concrete URLs sharing a final path segment. -/
theorem sync_repo_url_independent_when_present_witness :
    sync_repo envAllCpe "https://a.example/r.git" "/t" none =
      sync_repo envAllCpe "https://b.example/other/r.git" "/t" none ∧
    (sync_repo envAllCpe "https://a.example/r.git" "/t" none).2 =
      updateTrace envAllCpe (pathJoin "/t" (repoName "https://a.example/r.git")) none :=
  sync_repo_url_independent_when_present envAllCpe "https://a.example/r.git"
    "https://b.example/other/r.git" "/t" none (fun _ _ hh => RunOutcome.noConfusion hh) rfl rfl

/-- Environment in which every path exists and every command raises an
uncaught `OSError` (missing executable). -/
def envAllOs : Env := ⟨fun _ => false, fun _ _ => .osError⟩

/-- C1 (code-bug evidence): `DEFAULT_MAP` stores the explicit no-repository
marker `None` for `comfy-core`, and the identifier indeed triggers no
synchronization — but it is not skipped silently: resolution yields the
no-mapping outcome and the identifier lands in the final `missing_map`
report, because `DEFAULT_MAP.get(key) or DEFAULT_MAP.get(k) or None`
cannot distinguish a stored `None` from an absent key. -/
theorem comfy_core_marker_lands_in_missing_report :
    DEFAULT_MAP.lookup "comfy-core" = some none ∧
    resolveRepo "comfy-core" = none ∧
    processCnrIds envAllCpe "/t" none ["comfy-core"] = .ok ([], ["comfy-core"]) :=
  ⟨rfl, rfl, rfl⟩

/-- C4 counterexample: a command whose executable cannot be found raises
`FileNotFoundError`, which the `except subprocess.CalledProcessError`
clause of `run` does not catch: `run` yields an exception instead of a
boolean, and the exception escapes `sync_repo` and aborts the identifier
loop, reaching the loop's caller. -/
theorem command_exception_escapes_loop_counterexample :
    run envAllOs "git --version" none = (.error .osError, [("git --version", none)]) ∧
    processCnrIds envAllOs "/t" none ["rgthree-comfy"] = .error .osError :=
  ⟨rfl, rfl⟩

/-- C4 amended: an invocation that starts and exits nonzero raises
`CalledProcessError`, which `run` converts to the boolean `False` (normal
exit gives `True`) together with the logged attempt; every outcome other
than an `OSError` is wrapped this way. -/
theorem run_wraps_nonzero_exit (env : Env) (c : String) (cwd : Option String)
    (h : env.out c cwd ≠ .osError) :
    run env c cwd = (.ok (decide (env.out c cwd = .success)), [(c, cwd)]) := by
  unfold run
  cases hc : env.out c cwd with
  | success => simp
  | calledProcessError => simp
  | osError => exact absurd hc h

/-- Witness for the amended C4 at a concrete failing command. -/
theorem run_wraps_nonzero_exit_witness :
    run envAllCpe "git fetch" none = (.ok false, [("git fetch", none)]) :=
  run_wraps_nonzero_exit envAllCpe "git fetch" none (fun hh => RunOutcome.noConfusion hh)

/-- C5 counterexample: `replace('.git', '')` removes every occurrence of
`.git`, not only a trailing extension: the URL whose final segment is
`a.gitb.git` yields directory name `ab`, while stripping only the suffix
would yield `a.gitb`. -/
theorem repoName_strips_inner_git_counterexample :
    repoName "https://example.com/a.gitb.git" = "ab" ∧
    repoName "https://example.com/a.gitb.git" ≠ "a.gitb" :=
  ⟨rfl, by decide⟩

lemma stripAllGit_of_not_hasGit : ∀ (l : List Char), hasGit l = false → stripAllGit l = l := by
  intro l
  induction l using stripAllGit.induct with
  | case1 rest ih => intro h; simp [hasGit] at h
  | case2 c rest h1 ih =>
      intro h
      rw [hasGit] at h
      · rw [stripAllGit]
        · rw [ih h]
        · exact h1
      · exact h1
  | case3 => intro h; rfl

lemma stripAllGit_append_git : ∀ (stem : List Char), hasGit stem = false →
    stripAllGit (stem ++ ('.' :: 'g' :: 'i' :: 't' :: [])) = stem := by
  intro stem
  induction stem using stripAllGit.induct with
  | case1 rest ih => intro h; simp [hasGit] at h
  | case2 c rest h1 ih =>
      intro h
      rw [hasGit] at h
      · rw [List.cons_append, stripAllGit]
        · rw [ih h]
        · intro rest1 hc hr
          rcases rest with _ | ⟨x, _ | ⟨y, _ | ⟨z, rest'⟩⟩⟩ <;> simp at hr
          obtain ⟨hx, hy, hz, -⟩ := hr
          exact h1 rest' hc (by rw [hx, hy, hz])
      · exact h1
  | case3 => intro h; rfl

lemma basenameL_append_slash (l1 l2 : List Char) :
    basenameL (l1 ++ '/' :: l2) = basenameL l2 := by
  unfold basenameL
  rw [List.foldl_append, List.foldl_cons]
  simp

lemma foldl_basename_no_slash : ∀ (l acc : List Char), (∀ c ∈ l, c ≠ '/') →
    List.foldl (fun acc c => if c = '/' then [] else acc ++ [c]) acc l = acc ++ l := by
  intro l
  induction l with
  | nil => simp
  | cons c t ih =>
      intro acc h
      rw [List.foldl_cons]
      have hc : c ≠ '/' := h c (List.mem_cons_self c t)
      simp only [hc, if_false]
      rw [ih (acc ++ [c]) (fun d hd => h d (List.mem_cons_of_mem c hd))]
      simp

lemma basenameL_no_slash (l : List Char) (h : '/' ∉ l) : basenameL l = l := by
  unfold basenameL
  rw [foldl_basename_no_slash l [] (fun c hc => by rintro rfl; exact h hc)]
  simp

/-- C5 amended: the directory name is the last path segment of the URL with
every occurrence of the substring `.git` removed; when the segment contains
`.git` only as its trailing suffix, or not at all, this coincides with
stripping just that suffix. -/
theorem repoName_amended (host stem : List Char) (hng : hasGit stem = false)
    (hns : '/' ∉ stem) :
    repoName ⟨host ++ '/' :: (stem ++ ('.' :: 'g' :: 'i' :: 't' :: []))⟩ = ⟨stem⟩ ∧
    repoName ⟨host ++ '/' :: stem⟩ = ⟨stem⟩ := by
  have hgit : '/' ∉ stem ++ ('.' :: 'g' :: 'i' :: 't' :: []) := by
    intro hx
    rcases List.mem_append.1 hx with hx | hx
    · exact hns hx
    · simp at hx
  constructor
  · unfold repoName
    apply congrArg String.mk
    show stripAllGit (basenameL (host ++ '/' :: (stem ++ _))) = stem
    rw [basenameL_append_slash, basenameL_no_slash _ hgit, stripAllGit_append_git stem hng]
  · unfold repoName
    apply congrArg String.mk
    show stripAllGit (basenameL (host ++ '/' :: stem)) = stem
    rw [basenameL_append_slash, basenameL_no_slash stem hns, stripAllGit_of_not_hasGit stem hng]

/-- Witness for the amended C5 at a concrete host and segment. -/
theorem repoName_amended_witness :
    repoName ⟨"https://h".data ++ '/' :: ("repo".data ++ ('.' :: 'g' :: 'i' :: 't' :: []))⟩ =
      ⟨"repo".data⟩ ∧
    repoName ⟨"https://h".data ++ '/' :: "repo".data⟩ = ⟨"repo".data⟩ :=
  repoName_amended "https://h".data "repo".data (by decide) (by decide)

/-- C10: `pip_install` called with a requirements path that does not exist
returns `True` at once and invokes no installer command. -/
theorem pip_install_missing_requirements_noop (env : Env) (pip_exec : Option String)
    (req : String) (h : env.fs req = false) :
    pip_install env pip_exec req = (.ok true, []) := by
  unfold pip_install
  simp [h]

/-- Witness for C10 at a concrete environment. -/
theorem pip_install_missing_requirements_noop_witness :
    pip_install envNoneCpe none "/repo/requirements.txt" = (.ok true, []) :=
  pip_install_missing_requirements_noop envNoneCpe none "/repo/requirements.txt" rfl

/-- Lines 160-162 of `main`: `args.pip or os.environ.get('PIP_EXEC') or
"/opt/venv/bin/pip"`, discarded (set to `None`) when the chosen path does
not exist on disk. -/
def choose_pip (env : Env) (cliPip envPip : Option String) : Option String :=
  match pyOrS cliPip (pyOrS envPip (some "/opt/venv/bin/pip")) with
  | some s => if env.fs s then some s else none
  | none => none

/-- The installer path the or-chain selects, before the existence check. -/
def chosenPip (cliPip envPip : Option String) : String :=
  (pyOrS cliPip (pyOrS envPip (some "/opt/venv/bin/pip"))).getD ""

lemma chosenPip_spec (cli envv : Option String) :
    pyOrS cli (pyOrS envv (some "/opt/venv/bin/pip")) = some (chosenPip cli envv) ∧
    chosenPip cli envv ≠ "" := by
  rcases cli with _ | s
  · rcases envv with _ | t
    · simp [chosenPip, pyOrS]
    · by_cases ht : t = "" <;> simp [chosenPip, pyOrS, ht]
  · rcases envv with _ | t
    · by_cases hs : s = "" <;> simp [chosenPip, pyOrS, hs]
    · by_cases hs : s = "" <;> by_cases ht : t = "" <;> simp [chosenPip, pyOrS, hs, ht]

/-- C8: the installer is chosen by falling back from the command-line path
to the environment variable to the fixed default path; when the chosen path
does not exist on disk, dependency installation runs the `python3 -m pip`
module invocation, and when it exists, the chosen path itself is the
executable invoked. -/
theorem pip_choice_fallback (env : Env) (cli envv : Option String) (req : String)
    (hreq : env.fs req = true) :
    (∀ s, cli = some s → s ≠ "" → chosenPip cli envv = s) ∧
    ((cli = none ∨ cli = some "") → ∀ t, envv = some t → t ≠ "" → chosenPip cli envv = t) ∧
    ((cli = none ∨ cli = some "") → (envv = none ∨ envv = some "") →
      chosenPip cli envv = "/opt/venv/bin/pip") ∧
    (env.fs (chosenPip cli envv) = false →
      pip_install env (choose_pip env cli envv) req =
        run env ("python3 -m pip install -r " ++ shquote req) none) ∧
    (env.fs (chosenPip cli envv) = true →
      pip_install env (choose_pip env cli envv) req =
        run env (chosenPip cli envv ++ " install -r " ++ shquote req) none) := by
  obtain ⟨hchain, hne⟩ := chosenPip_spec cli envv
  refine ⟨?_, ?_, ?_, ?_, ?_⟩
  · rintro s rfl hs
    simp [chosenPip, pyOrS, hs]
  · rintro (rfl | rfl) t rfl ht <;> simp [chosenPip, pyOrS, ht]
  · rintro (rfl | rfl) (rfl | rfl) <;> simp [chosenPip, pyOrS]
  · intro hfs
    unfold choose_pip
    rw [hchain]
    simp only [hfs, if_false]
    unfold pip_install
    simp [hreq, pipCmdFor]
  · intro hfs
    unfold choose_pip
    rw [hchain]
    simp only [hfs, if_true]
    unfold pip_install
    simp only [hreq]
    unfold pipCmdFor
    simp [hfs, hne]

/-- Witness for C8 at a concrete selection. -/
theorem pip_choice_fallback_witness :
    (∀ s, (some "/pipx" : Option String) = some s → s ≠ "" → chosenPip (some "/pipx") none = s) ∧
    ((some "/pipx" = (none : Option String) ∨ (some "/pipx" : Option String) = some "") →
      ∀ t, (none : Option String) = some t → t ≠ "" → chosenPip (some "/pipx") none = t) ∧
    ((some "/pipx" = (none : Option String) ∨ (some "/pipx" : Option String) = some "") →
      ((none : Option String) = none ∨ (none : Option String) = some "") →
      chosenPip (some "/pipx") none = "/opt/venv/bin/pip") ∧
    (envAllCpe.fs (chosenPip (some "/pipx") none) = false →
      pip_install envAllCpe (choose_pip envAllCpe (some "/pipx") none) "/r.txt" =
        run envAllCpe ("python3 -m pip install -r " ++ shquote "/r.txt") none) ∧
    (envAllCpe.fs (chosenPip (some "/pipx") none) = true →
      pip_install envAllCpe (choose_pip envAllCpe (some "/pipx") none) "/r.txt" =
        run envAllCpe (chosenPip (some "/pipx") none ++ " install -r " ++ shquote "/r.txt") none) :=
  pip_choice_fallback envAllCpe (some "/pipx") none "/r.txt" rfl

mutual
/-- Parsed JSON documents as `json.loads` returns them.  Object keys keep
insertion order, as Python dicts do; numbers are modelled as integers (no
claim depends on float formatting). -/
inductive Json where
  | str (s : List Char)
  | int (n : Int)
  | bool (b : Bool)
  | null
  | arr (elems : JsonList)
  | obj (entries : JsonEntries)
/-- Spine of a JSON array. -/
inductive JsonList where
  | nil
  | cons (hd : Json) (tl : JsonList)
/-- Spine of a JSON object: ordered key-value entries. -/
inductive JsonEntries where
  | nil
  | cons (key : List Char) (val : Json) (tl : JsonEntries)
end

/-- Lowercase hexadecimal digit. -/
def hexDigit (n : Nat) : Char :=
  if n < 10 then Char.ofNat (48 + n) else Char.ofNat (87 + n)

/-- Four lowercase hex digits, as in a JSON backslash-u escape. -/
def hex4 (n : Nat) : List Char :=
  [hexDigit (n / 4096 % 16), hexDigit (n / 256 % 16), hexDigit (n / 16 % 16), hexDigit (n % 16)]

/-- The escaping `json.dumps` (default `ensure_ascii=True`) applies to one
character: shorthand escapes, backslash-u for other control or non-ASCII
characters, surrogate pairs beyond the basic plane. -/
def escChar (c : Char) : List Char :=
  if c == '"' then ['\\', '"']
  else if c == '\\' then ['\\', '\\']
  else if c == '\n' then ['\\', 'n']
  else if c == '\t' then ['\\', 't']
  else if c == '\r' then ['\\', 'r']
  else if c == '\x08' then ['\\', 'b']
  else if c == '\x0c' then ['\\', 'f']
  else if c.toNat < 32 then '\\' :: 'u' :: hex4 c.toNat
  else if c.toNat < 127 then [c]
  else if c.toNat < 65536 then '\\' :: 'u' :: hex4 c.toNat
  else
    '\\' :: 'u' :: hex4 (55296 + (c.toNat - 65536) / 1024) ++
      ('\\' :: 'u' :: hex4 (56320 + (c.toNat - 65536) % 1024))

/-- A JSON string literal as `json.dumps` prints it. -/
def quoteStr (s : List Char) : List Char := '"' :: ((s.map escChar).flatten ++ ['"'])

mutual
/-- Model of `json.dumps(data)` with the default separators (comma-space and
colon-space). -/
def dumps : Json → List Char
  | .str s => quoteStr s
  | .int n => (toString n).data
  | .bool true => 't' :: 'r' :: 'u' :: 'e' :: []
  | .bool false => 'f' :: 'a' :: 'l' :: 's' :: 'e' :: []
  | .null => 'n' :: 'u' :: 'l' :: 'l' :: []
  | .arr l => '[' :: (List.intercalate (',' :: ' ' :: []) (dumpsList l) ++ (']' :: []))
  | .obj l => '\x7b' :: (List.intercalate (',' :: ' ' :: []) (dumpsEntries l) ++ ('\x7d' :: []))
/-- Serialized pieces of the elements of an array. -/
def dumpsList : JsonList → List (List Char)
  | .nil => []
  | .cons j tl => dumps j :: dumpsList tl
/-- Serialized pieces of the entries of an object. -/
def dumpsEntries : JsonEntries → List (List Char)
  | .nil => []
  | .cons k v tl => (quoteStr k ++ ':' :: ' ' :: dumps v) :: dumpsEntries tl
end

/-- Python regex whitespace (ASCII). -/
def isPyWsRe (c : Char) : Bool :=
  c == ' ' || c == '\t' || c == '\n' || c == '\r' || c == '\x0b' || c == '\x0c'

/-- The literal head of the scanned pattern: quote, `cnr_id`, quote. -/
def litCnr : List Char := '"' :: 'c' :: 'n' :: 'r' :: '_' :: 'i' :: 'd' :: '"' :: []

/-- One anchored attempt of the regex of line 87: literal quoted `cnr_id`,
optional whitespace, colon, optional whitespace, then a quoted non-empty
greedy capture of non-quote characters; yields the capture and the rest of
the text after the match. -/
def matchCnrAt (l : List Char) : Option (List Char × List Char) :=
  if litCnr.isPrefixOf l then
    match (l.drop 8).dropWhile isPyWsRe with
    | ':' :: r3 =>
      match r3.dropWhile isPyWsRe with
      | '"' :: r5 =>
        let cap := r5.takeWhile (fun c => c != '"')
        if cap.isEmpty then none
        else
          match r5.drop cap.length with
          | '"' :: rest => some (cap, rest)
          | _ => none
      | _ => none
    | _ => none
  else none

/-- The left-to-right, non-overlapping scan of `re.findall`, fuelled by the
input length (an attempt either matches — consuming at least the pattern
head — or the scan advances one character). -/
def findCnrAux : Nat → List Char → List (List Char)
  | 0, _ => []
  | fuel + 1, l =>
    match matchCnrAt l with
    | some (cap, rest) => cap :: findCnrAux fuel rest
    | none =>
      match l with
      | [] => []
      | _ :: t => findCnrAux fuel t

/-- All captures of the `cnr_id` pattern in a text, in scan order. -/
def findCnr (l : List Char) : List (List Char) := findCnrAux l.length l

/-- Per-file extraction of lines 86-88: serialize the parsed document and
scan the serialized text for the `cnr_id` pattern. -/
def extractFile (j : Json) : List (List Char) := findCnr (dumps j)

/-- One entry of the workflow directory: its name and, when it is a
readable well-formed JSON file, its parsed content (`none` models a read or
parse failure, the `except` branch of lines 81-85). -/
structure WFile where
  name : List Char
  content : Option Json

/-- Does the entry name match the glob pattern star-dot-json (line 80)? -/
def jsonName (name : List Char) : Bool :=
  ('.' :: 'j' :: 's' :: 'o' :: 'n' :: []).isSuffixOf name

/-- Python `set.add`: append the value unless already present. -/
def setInsert (acc : List (List Char)) (v : List Char) : List (List Char) :=
  if v ∈ acc then acc else acc ++ [v]

/-- Folding one directory entry into the accumulated identifier set:
non-matching names contribute nothing, unparseable files are skipped with a
warning, matches of a parsed file are added to the set. -/
def scanStep (acc : List (List Char)) (f : WFile) : List (List Char) :=
  if jsonName f.name then
    match f.content with
    | some j => (extractFile j).foldl setInsert acc
    | none => acc
  else acc

/-- The set `cnrs` accumulated by the loop of lines 80-88. -/
def scanFold (files : List WFile) : List (List Char) := files.foldl scanStep []

/-- Model of `parse_workflows(workflows_dir)` (lines 75-89): `none` models a
directory that does not exist (`return []`); otherwise `sorted(cnrs)`, the
accumulated identifier set in ascending lexicographic order. -/
def parse_workflows (dir : Option (List WFile)) : List (List Char) :=
  match dir with
  | none => []
  | some files => List.insertionSort (· ≤ ·) (scanFold files)

lemma mem_setInsert (acc : List (List Char)) (x v : List Char) :
    v ∈ setInsert acc x ↔ v ∈ acc ∨ v = x := by
  unfold setInsert
  by_cases h : x ∈ acc <;> simp [h]
  exact fun e => e ▸ h

lemma mem_foldl_setInsert (l : List (List Char)) : ∀ (acc : List (List Char)) (v : List Char),
    v ∈ l.foldl setInsert acc ↔ v ∈ acc ∨ v ∈ l := by
  induction l with
  | nil => intro acc v; simp
  | cons x t ih =>
      intro acc v
      rw [List.foldl_cons, ih, mem_setInsert]
      simp [or_assoc]

lemma nodup_setInsert (acc : List (List Char)) (x : List Char) (h : acc.Nodup) :
    (setInsert acc x).Nodup := by
  unfold setInsert
  by_cases hx : x ∈ acc <;> simp [hx, h, List.nodup_append]

lemma nodup_foldl_setInsert (l : List (List Char)) : ∀ (acc : List (List Char)),
    acc.Nodup → (l.foldl setInsert acc).Nodup := by
  induction l with
  | nil => intro acc h; simpa using h
  | cons x t ih => intro acc h; rw [List.foldl_cons]; exact ih _ (nodup_setInsert acc x h)

lemma mem_scanStep (acc : List (List Char)) (f : WFile) (v : List Char) :
    v ∈ scanStep acc f ↔
      v ∈ acc ∨ (jsonName f.name = true ∧ ∃ j, f.content = some j ∧ v ∈ extractFile j) := by
  unfold scanStep
  by_cases hn : jsonName f.name <;> cases hc : f.content <;>
    simp [hn, hc, mem_foldl_setInsert]

lemma nodup_scanStep (acc : List (List Char)) (f : WFile) (h : acc.Nodup) :
    (scanStep acc f).Nodup := by
  unfold scanStep
  by_cases hn : jsonName f.name <;> cases hc : f.content <;>
    simp [hn, hc, h, nodup_foldl_setInsert]

lemma mem_foldl_scanStep (files : List WFile) : ∀ (acc : List (List Char)) (v : List Char),
    v ∈ files.foldl scanStep acc ↔
      v ∈ acc ∨ ∃ f ∈ files, jsonName f.name = true ∧ ∃ j, f.content = some j ∧
        v ∈ extractFile j := by
  induction files with
  | nil => intro acc v; simp
  | cons f rest ih =>
      intro acc v
      rw [List.foldl_cons, ih, mem_scanStep]
      simp [or_assoc]

lemma nodup_scanFold (files : List WFile) : (scanFold files).Nodup := by
  unfold scanFold
  have h : ∀ (fs : List WFile) (acc : List (List Char)), acc.Nodup →
      (fs.foldl scanStep acc).Nodup := by
    intro fs
    induction fs with
    | nil => intro acc hacc; simpa using hacc
    | cons f rest ih => intro acc hacc; rw [List.foldl_cons]; exact ih _ (nodup_scanStep acc f hacc)
  exact h files [] List.nodup_nil

/-- C6: the Workflow Scanner returns a duplicate-free list, sorted in
ascending lexicographic order, whose members are exactly the identifiers
the `cnr_id` pattern captures in some parsed file of the directory whose
name matches the star-dot-json glob — a file that fails to read or parse
contributes nothing but does not abort the scan — and a directory that does
not exist yields the empty list without error. -/
theorem parse_workflows_sorted_distinct :
    parse_workflows none = [] ∧
    ∀ files : List WFile,
      (parse_workflows (some files)).Sorted (· ≤ ·) ∧
      (parse_workflows (some files)).Nodup ∧
      ∀ v, v ∈ parse_workflows (some files) ↔
        ∃ f ∈ files, jsonName f.name = true ∧ ∃ j, f.content = some j ∧ v ∈ extractFile j := by
  refine ⟨rfl, fun files => ⟨List.sorted_insertionSort _ _, ?_, ?_⟩⟩
  · exact ((List.perm_insertionSort _ _).nodup_iff).2 (nodup_scanFold files)
  · intro v
    show v ∈ List.insertionSort _ _ ↔ _
    rw [List.mem_insertionSort]
    unfold scanFold
    rw [mem_foldl_scanStep]
    simp

/-- A character Python `str.splitlines` treats as a line boundary (the
carriage-return/line-feed pair counts as a single boundary). -/
def isLineBreak (c : Char) : Bool :=
  c == '\n' || c == '\r' || c == '\x0b' || c == '\x0c' ||
  c == '\x1c' || c == '\x1d' || c == '\x1e' || c == '\x85' || c == '\u2028' || c == '\u2029'

/-- Worker of `splitlines`, carrying the current line reversed. -/
def slGo (cur : List Char) : List Char → List (List Char)
  | [] => if cur.isEmpty then [] else [cur.reverse]
  | '\r' :: '\n' :: rest => cur.reverse :: slGo [] rest
  | c :: rest =>
    if isLineBreak c then cur.reverse :: slGo [] rest
    else slGo (c :: cur) rest

/-- Python `text.splitlines()`: no trailing empty line for a trailing
boundary. -/
def splitlines (l : List Char) : List (List Char) := slGo [] l

/-- A character Python `str.strip()` removes (the whitespace the script can
meet in a repos file; the full Unicode space set is not needed here). -/
def isPyStripWs (c : Char) : Bool :=
  c == ' ' || c == '\t' || c == '\n' || c == '\r' || c == '\x0b' || c == '\x0c' ||
  c == '\x1c' || c == '\x1d' || c == '\x1e' || c == '\x1f' || c == '\x85' || c == '\xa0'

/-- Python `line.strip()`. -/
def pyStrip (l : List Char) : List Char :=
  ((l.dropWhile isPyStripWs).reverse.dropWhile isPyStripWs).reverse

/-- The loop body of lines 142-146: strip the line, skip it when blank or
starting with the comment marker, otherwise append it. -/
def loadStep (repos : List (List Char)) (line : List Char) : List (List Char) :=
  let l := pyStrip line
  if l.isEmpty then repos
  else if l.headD ' ' == '#' then repos
  else repos ++ [l]

/-- Model of `load_extra_repos(file_path)` (lines 135-147): `none` models a missing
`--extra-repos-file` argument, `some none` a path whose file does not
exist; both yield the empty list.  Otherwise the file text is split into
lines and filtered by `loadStep`. -/
def load_extra_repos (file : Option (Option (List Char))) : List (List Char) :=
  match file with
  | none => []
  | some none => []
  | some (some text) => (splitlines text).foldl loadStep []

/-- A stripped line the loader keeps: non-blank and not starting with the
comment marker. -/
def keptLine (l : List Char) : Bool := !l.isEmpty && !(l.headD ' ' == '#')

lemma foldl_loadStep (lines : List (List Char)) : ∀ acc : List (List Char),
    lines.foldl loadStep acc = acc ++ (lines.map pyStrip).filter keptLine := by
  induction lines with
  | nil => intro acc; simp
  | cons x t ih =>
      intro acc
      rw [List.foldl_cons, List.map_cons, List.filter_cons]
      have hstep : loadStep acc x =
          if keptLine (pyStrip x) then acc ++ [pyStrip x] else acc := by
        unfold loadStep keptLine
        by_cases h1 : (pyStrip x).isEmpty <;>
          by_cases h2 : (pyStrip x).headD ' ' == '#' <;>
            simp [h1, h2]
      rw [hstep]
      by_cases hk : keptLine (pyStrip x)
      · rw [if_pos hk, if_pos hk, ih]
        simp
      · rw [if_neg hk, if_neg hk, ih]

/-- C7: the Extra-Repo Loader returns, in file order, exactly the stripped
lines that are non-blank and do not start with the comment marker; a
missing path argument or a missing file yields the empty sequence, never an
error. -/
theorem load_extra_repos_spec :
    load_extra_repos none = [] ∧
    load_extra_repos (some none) = [] ∧
    ∀ text, load_extra_repos (some (some text)) =
      ((splitlines text).map pyStrip).filter keptLine := by
  refine ⟨rfl, rfl, fun text => ?_⟩
  show (splitlines text).foldl loadStep [] = _
  rw [foldl_loadStep]
  simp
